import Mathlib

/-!
Verification development for the classified-ads marketplace server
(`iklan-ikan-online`).  The definitions below are a shallow embedding of the
server handlers in `src/server/src/handlers/ads.ts`,
`src/server/src/handlers/categories.ts` and the payments handler
(`createPayment`, `handleMidtransCallback`, `processSuccessfulPayment`).

Modelling conventions:
* the Postgres database is a `Store`: one list per table plus the current
  time `now : Nat` (timestamps are abstract milliseconds, as in JS `Date`);
* `db.select().where(eq(t.id, id))` followed by `rows[0]` is `List.find?`
  on the id (the first matching row);
* `db.update(t).set(g).where(eq(t.id, id))` is `updateWhere`, mapping `g`
  over every row whose id matches;
* monetary `numeric(10,2)` columns are modelled in minor units
  (integer cents), so `Math.floor(parseFloat(amount))` is `amount / 100`;
* handlers that `throw` return `Except String`, carrying the thrown
  message; a thrown error performs no further writes, and the caller keeps
  the old store;
* JavaScript truthiness tests on optional ids (`if (input.category_id)`)
  are modelled by `truthyId`: both `null` and `0` are falsy; truthiness of
  optional strings (`truthyStr`) treats `null` and `""` as falsy.
-/

/-- Ad status enum `ad_status` from `src/server/src/db/schema.ts`. -/
inductive AdStatus
  | draft
  | active
  | expired
  | rejected
  | deleted
deriving DecidableEq

/-- Payment type enum `payment_type` from the schema. -/
inductive PaymentType
  | membership
  | boost
deriving DecidableEq

/-- Payment status enum `payment_status` from the schema. -/
inductive PaymentStatus
  | pending
  | paid
  | failed
  | cancelled
deriving DecidableEq

/-- Status values accepted by `moderateAdInputSchema` (zod enum
`['active', 'rejected']`). -/
inductive ModStatus
  | active
  | rejected
deriving DecidableEq

/-- Interpretation of a moderation status as an ad status. -/
def ModStatus.toAdStatus : ModStatus → AdStatus
  | .active => .active
  | .rejected => .rejected

/-- Row of the `users` table. -/
structure User where
  id : Nat
  email : String
  password_hash : String
  full_name : String
  phone : Option String
  avatar_url : Option String
  membership_id : Option Nat
  boost_credits : Nat
  is_admin : Bool
  is_active : Bool
  created_at : Nat
  updated_at : Nat
deriving DecidableEq

/-- Row of the `membership_packages` table (price in minor units). -/
structure MembershipPackage where
  id : Nat
  name : String
  description : Option String
  price : Int
  duration_days : Nat
  max_ads : Nat
  boost_credits : Nat
  features : List String
  is_active : Bool
  created_at : Nat
deriving DecidableEq

/-- Row of the `categories` table. -/
structure Category where
  id : Nat
  name : String
  description : Option String
  icon_url : Option String
  is_active : Bool
  created_at : Nat
deriving DecidableEq

/-- Row of the `ads` table (price in minor units). -/
structure Ad where
  id : Nat
  user_id : Nat
  category_id : Nat
  title : String
  description : String
  price : Int
  location : String
  contact_info : String
  images : List String
  is_boosted : Bool
  boost_expires_at : Option Nat
  view_count : Nat
  contact_count : Nat
  status : AdStatus
  rejection_reason : Option String
  created_at : Nat
  updated_at : Nat
deriving DecidableEq

/-- Row of the `payments` table.  `amount` is in minor units (cents);
`midtrans_response` is the opaque gateway payload, kept as a string. -/
structure Payment where
  id : Nat
  user_id : Nat
  membership_id : Option Nat
  ad_id : Option Nat
  type : PaymentType
  amount : Nat
  status : PaymentStatus
  midtrans_transaction_id : Option String
  midtrans_response : Option String
  created_at : Nat
  updated_at : Nat
deriving DecidableEq

/-- The whole database plus the current clock (JS `new Date()`), in
abstract milliseconds. -/
structure Store where
  users : List User
  categories : List Category
  ads : List Ad
  packages : List MembershipPackage
  payments : List Payment
  now : Nat
deriving DecidableEq

/-- JS truthiness of a nullable numeric id: `null` and `0` are falsy. -/
def truthyId : Option Nat → Bool
  | none => false
  | some n => n != 0

/-- JS truthiness of a nullable string: `null` and `""` are falsy. -/
def truthyStr : Option String → Bool
  | none => false
  | some s => s != ""

/-- First `users` row with the given id (`select ... where eq(users.id, id)`,
then `rows[0]`). -/
def findUser (s : Store) (id : Nat) : Option User :=
  s.users.find? (fun u => u.id == id)

/-- First `ads` row with the given id. -/
def findAd (s : Store) (id : Nat) : Option Ad :=
  s.ads.find? (fun a => a.id == id)

/-- First `categories` row with the given id. -/
def findCategory (s : Store) (id : Nat) : Option Category :=
  s.categories.find? (fun c => c.id == id)

/-- First `membership_packages` row with the given id. -/
def findPackage (s : Store) (id : Nat) : Option MembershipPackage :=
  s.packages.find? (fun p => p.id == id)

/-- First `payments` row with the given id. -/
def findPayment (s : Store) (id : Nat) : Option Payment :=
  s.payments.find? (fun p => p.id == id)

/-- SQL `UPDATE t SET ... WHERE t.id = id`: apply `g` to every row whose
key equals `id`, leave the others unchanged. -/
def updateWhere {α : Type} (key : α → Nat) (id : Nat) (g : α → α)
    (l : List α) : List α :=
  l.map (fun a => if key a == id then g a else a)

/-- Substring test on character lists: true iff `needle` occurs
contiguously inside the second argument. -/
def hasSubstr (needle : List Char) : List Char → Bool
  | [] => needle.isEmpty
  | c :: t => needle.isPrefixOf (c :: t) || hasSubstr needle t

/-- Plain case-sensitive substring containment on strings.  This is the
meaning of `LIKE '%needle%'` when the needle holds no LIKE
metacharacter; `sqlLikeContains_plain` below proves that equivalence. -/
def substrContains (needle hay : String) : Bool :=
  hasSubstr needle.toList hay.toList

/-- All suffixes of a character list, longest first, down to `[]`. -/
def suffixes : List Char → List (List Char)
  | [] => [[]]
  | c :: t => (c :: t) :: suffixes t

/-- Postgres `LIKE` pattern matching over character lists: `%` matches
any (possibly empty) sequence (the rest of the pattern must match some
suffix), `_` matches exactly one character, the default escape `\`
makes the next pattern character literal, and every other character
matches itself.  A pattern ending in a bare escape is a Postgres error;
it is modelled as matching nothing, but the patterns `getAds` builds
(`'%' ++ q ++ '%'`) can never end in a bare escape, so that branch is
unreachable for this handler. -/
def likeMatch : List Char → List Char → Bool
  | [], s => s.isEmpty
  | c :: p, s =>
    if c = '%' then
      (suffixes s).any (fun t => likeMatch p t)
    else if c = '_' then
      match s with
      | [] => false
      | _ :: t => likeMatch p t
    else if c = '\\' then
      match p with
      | [] => false
      | e :: p' =>
        match s with
        | [] => false
        | a :: t => e == a && likeMatch p' t
    else
      match s with
      | [] => false
      | a :: t => c == a && likeMatch p t

/-- The search condition `like(col, `%${q}%`)` built by `getAds`: the
raw search string is interpolated into the LIKE pattern, so any `%`,
`_` or `\` inside it keeps its LIKE meaning. -/
def sqlLikeContains (needle hay : String) : Bool :=
  likeMatch ('%' :: (needle.toList ++ ['%'])) hay.toList

/-- True when the string holds none of the LIKE metacharacters
`%`, `_`, `\` — for such needles the interpolated pattern degenerates
to plain substring containment. -/
def likePlain (q : String) : Bool :=
  q.toList.all (fun c => !(c == '%' || c == '_' || c == '\\'))

/-- Modelled from the spec: the case-insensitive substring match that
§4.3 of the spec attributes to the search and location filters.  The
handler itself uses `like` (case-sensitive); this definition exists only
to compare the spec's wording with the code's behaviour. -/
def ciContains (needle hay : String) : Bool :=
  hasSubstr (needle.toList.map Char.toLower) (hay.toList.map Char.toLower)

/-- Filters of `getAds` (zod `getAdsInputSchema`); every field optional. -/
structure GetAdsInput where
  category_id : Option Nat
  user_id : Option Nat
  search : Option String
  location : Option String
  min_price : Option Int
  max_price : Option Int
  limit : Option Nat
  offset : Option Nat
deriving DecidableEq

/-- The `getAds` call with no filters at all. -/
def noFilterInput : GetAdsInput :=
  { category_id := none, user_id := none, search := none, location := none
    min_price := none, max_price := none, limit := none, offset := none }

/-- A `getAds` call whose only filter is the free-text search. -/
def searchOnlyInput (q : String) : GetAdsInput :=
  { noFilterInput with search := some q }

/-- A `getAds` call whose only filter is the location. -/
def locationOnlyInput (l : String) : GetAdsInput :=
  { noFilterInput with location := some l }

/-- Conjunction of the WHERE conditions built by `getAds`
(`src/server/src/handlers/ads.ts:9-41`).  The status condition is always
pushed; each optional condition is pushed only when the input field is
JS-truthy (for ids and strings) or defined (for the price bounds, which
the handler tests with `!== undefined`). -/
def adMatches (inp : GetAdsInput) (a : Ad) : Bool :=
  (a.status == AdStatus.active)
  && (match inp.category_id with
      | none => true
      | some c => if c == 0 then true else a.category_id == c)
  && (match inp.user_id with
      | none => true
      | some u => if u == 0 then true else a.user_id == u)
  && (match inp.search with
      | none => true
      | some q =>
        if q == "" then true
        else sqlLikeContains q a.title || sqlLikeContains q a.description)
  && (match inp.location with
      | none => true
      | some l => if l == "" then true else sqlLikeContains l a.location)
  && (match inp.min_price with
      | none => true
      | some m => decide (m ≤ a.price))
  && (match inp.max_price with
      | none => true
      | some m => decide (a.price ≤ m))

/-- Sort key for `orderBy(desc(ads.is_boosted), ...)`: in Postgres,
`true` sorts before `false` under `DESC`. -/
def boostRank (a : Ad) : Nat :=
  if a.is_boosted then 1 else 0

/-- The row order produced by
`orderBy(desc(ads.is_boosted), desc(ads.created_at))`: higher boost rank
first, and later `created_at` first within equal rank. -/
def adBefore (a b : Ad) : Prop :=
  boostRank b < boostRank a ∨ (boostRank a = boostRank b ∧ b.created_at ≤ a.created_at)

instance : DecidableRel adBefore := fun a b =>
  inferInstanceAs (Decidable (boostRank b < boostRank a ∨
    (boostRank a = boostRank b ∧ b.created_at ≤ a.created_at)))

instance : IsTotal Ad adBefore :=
  ⟨by intro a b; unfold adBefore; omega⟩

instance : IsTrans Ad adBefore :=
  ⟨by intro a b c; unfold adBefore; omega⟩

/-- `getAds` (`ads.ts:7-69`): filter, order by `desc(is_boosted),
desc(created_at)`, then apply OFFSET and LIMIT (SQL applies OFFSET
before LIMIT; the handler adds each clause only when the input value is
JS-truthy, so `0` means "absent"). -/
def getAds (inp : GetAdsInput) (s : Store) : List Ad :=
  let filtered := s.ads.filter (adMatches inp)
  let sorted := List.insertionSort adBefore filtered
  let afterOffset :=
    match inp.offset with
    | none => sorted
    | some o => if o == 0 then sorted else sorted.drop o
  match inp.limit with
  | none => afterOffset
  | some l => if l == 0 then afterOffset else afterOffset.take l

/-- Modelled from the spec: "effective boost" is boost flag true AND a
non-null expiry strictly in the future (spec glossary and §3). -/
def effectivelyBoosted (now : Nat) (a : Ad) : Bool :=
  a.is_boosted
  && (match a.boost_expires_at with
      | none => false
      | some t => decide (now < t))

/-- Modelled from the spec: the ordering C1 claims for `getAds` output —
every effectively-boosted ad before every non-effectively-boosted ad,
and `created_at` descending within each of the two partitions. -/
def specOrderedEffBoost (now : Nat) (l : List Ad) : Prop :=
  List.Pairwise (fun a b =>
    (effectivelyBoosted now a = false → effectivelyBoosted now b = false) ∧
    (effectivelyBoosted now a = effectivelyBoosted now b → b.created_at ≤ a.created_at)) l

instance (now : Nat) (l : List Ad) : Decidable (specOrderedEffBoost now l) := by
  unfold specOrderedEffBoost
  infer_instance

/-- `getAdById` (`ads.ts:71-100`): `null` when the id is absent;
otherwise bump the stored `view_count` to the read value plus one and
return the ad carrying the post-increment value. -/
def getAdById (id : Nat) (s : Store) : Option Ad × Store :=
  match findAd s id with
  | none => (none, s)
  | some ad =>
    let bumped := { ad with view_count := ad.view_count + 1 }
    let newAds := updateWhere Ad.id id
      (fun a => { a with view_count := ad.view_count + 1 }) s.ads
    (some bumped, { s with ads := newAds })

/-- Iterate `getAdById` on the same id, keeping only the store. -/
def getAdByIdTimes (id : Nat) : Nat → Store → Store
  | 0, s => s
  | n + 1, s => getAdByIdTimes id n (getAdById id s).2

/-- Fields of `updateAdInputSchema` (id required, the rest optional). -/
structure UpdateAdInput where
  id : Nat
  title : Option String
  description : Option String
  price : Option Int
  location : Option String
  contact_info : Option String
  images : Option (List String)
deriving DecidableEq

/-- `updateAd` (`ads.ts:167-223`): owner-gated partial update; only the
provided fields are written, `updated_at` is always bumped, and `status`
is never touched. -/
def updateAd (inp : UpdateAdInput) (userId : Nat) (s : Store) :
    Except String (Ad × Store) :=
  match findAd s inp.id with
  | none => .error "Ad not found"
  | some ad =>
    if ad.user_id != userId then
      .error "Unauthorized - ad does not belong to user"
    else
      let g := fun (a : Ad) =>
        { a with
          title := inp.title.getD a.title
          description := inp.description.getD a.description
          price := inp.price.getD a.price
          location := inp.location.getD a.location
          contact_info := inp.contact_info.getD a.contact_info
          images := inp.images.getD a.images
          updated_at := s.now }
      .ok (g ad, { s with ads := updateWhere Ad.id inp.id g s.ads })

/-- `deleteAd` (`ads.ts:225-268`): requires the ad and the requester to
exist and the requester to be the owner or an admin; soft delete
(status → `deleted`, `updated_at` bumped) with no guard on the prior
status; returns `true`. -/
def deleteAd (id : Nat) (userId : Nat) (s : Store) :
    Except String (Bool × Store) :=
  match findAd s id with
  | none => .error "Ad not found"
  | some ad =>
    match findUser s userId with
    | none => .error "User not found"
    | some user =>
      if ad.user_id != userId && !user.is_admin then
        .error "Unauthorized - cannot delete this ad"
      else
        let newAds := updateWhere Ad.id id
          (fun a => { a with status := AdStatus.deleted, updated_at := s.now }) s.ads
        .ok (true, { s with ads := newAds })

/-- Fields of `boostAdInputSchema` (`duration_days` positive by zod). -/
structure BoostAdInput where
  ad_id : Nat
  duration_days : Nat
deriving DecidableEq

/-- One JS day in milliseconds, as added by
`boostExpiry.setDate(boostExpiry.getDate() + input.duration_days)`. -/
def dayMillis : Nat := 86400000

/-- `boostAd` (`ads.ts:270-332`): owner-gated; fails when the requester
holds fewer than 1 credit; otherwise sets the boost flag, the expiry to
now plus `duration_days` days, bumps `updated_at`, and writes the
requester's credits to the read value minus one (a flat cost of one
credit, independent of `duration_days`). -/
def boostAd (inp : BoostAdInput) (userId : Nat) (s : Store) :
    Except String (Ad × Store) :=
  match findAd s inp.ad_id with
  | none => .error "Ad not found"
  | some ad =>
    if ad.user_id != userId then
      .error "Unauthorized - ad does not belong to user"
    else
      match findUser s userId with
      | none => .error "User not found"
      | some user =>
        if user.boost_credits < 1 then
          .error "Insufficient boost credits"
        else
          let g := fun (a : Ad) =>
            { a with
              is_boosted := true
              boost_expires_at := some (s.now + inp.duration_days * dayMillis)
              updated_at := s.now }
          let s1 := { s with ads := updateWhere Ad.id inp.ad_id g s.ads }
          let newUsers := updateWhere User.id userId
            (fun u => { u with boost_credits := user.boost_credits - 1 }) s1.users
          .ok (g ad, { s1 with users := newUsers })

/-- Fields of `moderateAdInputSchema`; `rejection_reason` is
required-nullable in zod, so the handler's `!== undefined` test is
always true and the field is always written. -/
structure ModerateAdInput where
  ad_id : Nat
  status : ModStatus
  rejection_reason : Option String
deriving DecidableEq

/-- `moderateAd` (`ads.ts:334-370`): sets `status` to the requested
value and writes `rejection_reason`, with no check on the ad's current
status (in particular none for `deleted`). -/
def moderateAd (inp : ModerateAdInput) (s : Store) :
    Except String (Ad × Store) :=
  match findAd s inp.ad_id with
  | none => .error "Ad not found"
  | some ad =>
    let g := fun (a : Ad) =>
      { a with
        status := inp.status.toAdStatus
        rejection_reason := inp.rejection_reason
        updated_at := s.now }
    .ok (g ad, { s with ads := updateWhere Ad.id inp.ad_id g s.ads })

/-- `getCategories` (`categories.ts:7-22`): all rows with
`is_active = true`. -/
def getCategories (s : Store) : List Category :=
  s.categories.filter (fun c => c.is_active)

/-- Fields of `createCategoryInputSchema`. -/
structure CreateCategoryInput where
  name : String
  description : Option String
  icon_url : Option String
deriving DecidableEq

/-- Fresh serial primary key: Postgres `serial` always exceeds every id
already present; modelled as the maximum existing id plus one. -/
def nextCategoryId (s : Store) : Nat :=
  (s.categories.map Category.id).foldr max 0 + 1

/-- `createCategory` (`categories.ts:24-41`): insert with
`is_active = true` and a fresh serial id. -/
def createCategory (inp : CreateCategoryInput) (s : Store) :
    Category × Store :=
  let c : Category :=
    { id := nextCategoryId s, name := inp.name, description := inp.description
      icon_url := inp.icon_url, is_active := true, created_at := s.now }
  (c, { s with categories := s.categories ++ [c] })

/-- `deleteCategory` (`categories.ts:65-80`): set `is_active = false` on
every row with the id; `returning()` yields the updated rows, and the
handler returns `result.length > 0`, i.e. whether the id was present. -/
def deleteCategory (id : Nat) (s : Store) : Bool × Store :=
  let matched := s.categories.filter (fun c => c.id == id)
  let newCats := updateWhere Category.id id
    (fun c => { c with is_active := false }) s.categories
  (!matched.isEmpty, { s with categories := newCats })

/-- Fields of `createPaymentInputSchema` (`membership_id`/`ad_id`
nullable, `amount` positive; in minor units here). -/
structure CreatePaymentInput where
  membership_id : Option Nat
  ad_id : Option Nat
  type : PaymentType
  amount : Nat
deriving DecidableEq

/-- Fresh serial primary key for payments. -/
def nextPaymentId (s : Store) : Nat :=
  (s.payments.map Payment.id).foldr max 0 + 1

/-- `createPayment` (payments handler, lines 6-70): requires the user to
exist; when `type = 'membership'` AND `membership_id` is truthy, requires
an active package with that id; when `type = 'boost'` AND `ad_id` is
truthy, requires an ad with that id owned by the caller; then inserts a
`pending` payment.  A null (or `0`) `membership_id`/`ad_id` skips the
corresponding check entirely. -/
def createPayment (inp : CreatePaymentInput) (userId : Nat) (s : Store) :
    Except String (Payment × Store) :=
  match findUser s userId with
  | none => .error "User not found"
  | some _ =>
    if inp.type == PaymentType.membership && truthyId inp.membership_id
        && (s.packages.filter
              (fun p => p.id == inp.membership_id.getD 0 && p.is_active)).isEmpty then
      .error "Membership package not found or inactive"
    else if inp.type == PaymentType.boost && truthyId inp.ad_id
        && (s.ads.filter
              (fun a => a.id == inp.ad_id.getD 0 && a.user_id == userId)).isEmpty then
      .error "Ad not found or not owned by user"
    else
      let p : Payment :=
        { id := nextPaymentId s, user_id := userId
          membership_id := inp.membership_id, ad_id := inp.ad_id
          type := inp.type, amount := inp.amount, status := PaymentStatus.pending
          midtrans_transaction_id := none, midtrans_response := none
          created_at := s.now, updated_at := s.now }
      .ok (p, { s with payments := s.payments ++ [p] })

/-- The `switch` of `handleMidtransCallback` (payments handler,
lines 86-103): gateway status vocabulary mapped to the internal one. -/
def mapMidtransStatus (status : String) : PaymentStatus :=
  if status == "settlement" || status == "capture" then .paid
  else if status == "deny" || status == "expire" || status == "failure" then .failed
  else if status == "cancel" then .cancelled
  else .pending

/-- `processSuccessfulPayment` (payments handler, lines 185-262).  For a
`membership` payment with truthy `membership_id`: assign the package to
the user, then (if the package row exists) re-read the user and add the
package's `boost_credits` grant to the balance.  For a `boost` payment
with truthy `ad_id`: add `Math.floor(parseFloat(amount))` credits, i.e.
`amount / 100` in minor units.  Any other shape is a no-op returning
`true`. -/
def processSuccessfulPayment (paymentId : Nat) (s : Store) :
    Except String Store :=
  match findPayment s paymentId with
  | none => .error "Payment not found"
  | some payment =>
    if payment.type == PaymentType.membership && truthyId payment.membership_id then
      let assigned := updateWhere User.id payment.user_id
        (fun u => { u with membership_id := payment.membership_id, updated_at := s.now })
        s.users
      let s1 := { s with users := assigned }
      match findPackage s1 (payment.membership_id.getD 0) with
      | none => .ok s1
      | some pkg =>
        match findUser s1 payment.user_id with
        | none => .ok s1
        | some u =>
          let grant := fun (w : User) =>
            { w with boost_credits := u.boost_credits + pkg.boost_credits, updated_at := s.now }
          let granted := updateWhere User.id payment.user_id grant s1.users
          .ok { s1 with users := granted }
    else if payment.type == PaymentType.boost && truthyId payment.ad_id then
      match findUser s payment.user_id with
      | none => .ok s
      | some u =>
        let grant := fun (w : User) =>
          { w with boost_credits := u.boost_credits + payment.amount / 100, updated_at := s.now }
        let granted := updateWhere User.id payment.user_id grant s.users
        .ok { s with users := granted }
    else .ok s

/-- `handleMidtransCallback` (payments handler, lines 72-125): find the
payment by gateway transaction id, write the mapped status and the raw
payload, and, exactly when the mapped status is `paid`, run
`processSuccessfulPayment` on the updated store. -/
def handleMidtransCallback (transactionId : String) (status : String)
    (response : String) (s : Store) : Except String Store :=
  match s.payments.find? (fun p => p.midtrans_transaction_id == some transactionId) with
  | none => .error "Payment not found for transaction ID"
  | some payment =>
    let paymentStatus := mapMidtransStatus status
    let write := fun (p : Payment) =>
      { p with status := paymentStatus, midtrans_response := some response
               updated_at := s.now }
    let newPayments := updateWhere Payment.id payment.id write s.payments
    let s1 := { s with payments := newPayments }
    if paymentStatus == PaymentStatus.paid then
      processSuccessfulPayment payment.id s1
    else
      .ok s1

/-- Test fixture: a user row with the given id, credit balance and admin
flag; the remaining columns take innocuous values. -/
def mkUser (id : Nat) (credits : Nat) (admin : Bool) : User :=
  { id := id, email := "u@example.com", password_hash := "h", full_name := "U"
    phone := none, avatar_url := none, membership_id := none
    boost_credits := credits, is_admin := admin, is_active := true
    created_at := 0, updated_at := 0 }

/-- Test fixture: an ad row with the given id, owner, creation time,
status, boost state and text columns. -/
def mkAd (id uid created : Nat) (st : AdStatus) (boosted : Bool)
    (expiry : Option Nat) (title descr loc : String) : Ad :=
  { id := id, user_id := uid, category_id := 1, title := title
    description := descr, price := 100, location := loc, contact_info := "c"
    images := [], is_boosted := boosted, boost_expires_at := expiry
    view_count := 0, contact_count := 0, status := st, rejection_reason := none
    created_at := created, updated_at := created }

/-- Empty database at time 100. -/
def emptyStore : Store :=
  { users := [], categories := [], ads := [], packages := [], payments := []
    now := 100 }

/-- Active ad whose boost flag is still set although the boost expired at
time 50 (the store clock is 100); created at time 10. -/
def adExpiredBoost : Ad := mkAd 1 1 10 .active true (some 50) "X" "dx" "Loc"

/-- Active, never-boosted ad created later, at time 20. -/
def adPlain : Ad := mkAd 2 1 20 .active false none "Y" "dy" "Loc"

/-- Store for the listing-order analysis: an expired-boost ad and a newer
plain ad. -/
def storeC1 : Store := { emptyStore with ads := [adExpiredBoost, adPlain] }

/-- Active ad owned by user 1, used by the boost scenarios. -/
def adOwned : Ad := mkAd 1 1 10 .active false none "A" "d" "L"

/-- Store where the owner of `adOwned` holds exactly 1 boost credit. -/
def storeOneCredit : Store :=
  { emptyStore with users := [mkUser 1 1 false], ads := [adOwned] }

/-- Store where the owner of `adOwned` holds 0 boost credits. -/
def storeZeroCredit : Store :=
  { emptyStore with users := [mkUser 1 0 false], ads := [adOwned] }

/-- A concrete boost request: ad 1 for 3 days. -/
def boostInpW : BoostAdInput := { ad_id := 1, duration_days := 3 }

/-- Soft-deleted ad owned by user 1. -/
def adDeleted : Ad := mkAd 1 1 10 .deleted false none "D" "d" "L"

/-- Store holding a deleted ad and its owner. -/
def storeDeleted : Store :=
  { emptyStore with ads := [adDeleted], users := [mkUser 1 5 false] }

/-- Moderation request that re-activates ad 1. -/
def modInpActive : ModerateAdInput :=
  { ad_id := 1, status := .active, rejection_reason := none }

/-- Active membership package granting 5 boost credits. -/
def pkgGold : MembershipPackage :=
  { id := 1, name := "Gold", description := none, price := 10000
    duration_days := 30, max_ads := 10, boost_credits := 5, features := []
    is_active := true, created_at := 0 }

/-- An inactive membership package (id 2). -/
def pkgInactive : MembershipPackage :=
  { pkgGold with id := 2, is_active := false }

/-- A `membership` payment for `pkgGold` with gateway transaction "t1". -/
def payMem : Payment :=
  { id := 1, user_id := 1, membership_id := some 1, ad_id := none
    type := .membership, amount := 10000, status := .paid
    midtrans_transaction_id := some "t1", midtrans_response := none
    created_at := 0, updated_at := 0 }

/-- A `boost` payment of amount 50.00 (5000 cents) for ad 1, gateway
transaction "t2". -/
def payBoost : Payment :=
  { id := 1, user_id := 1, membership_id := none, ad_id := some 1
    type := .boost, amount := 5000, status := .paid
    midtrans_transaction_id := some "t2", midtrans_response := none
    created_at := 0, updated_at := 0 }

/-- Store for the membership-entitlement scenario: user with 2 credits,
the Gold package, and `payMem`. -/
def storeMemPay : Store :=
  { emptyStore with
      users := [mkUser 1 2 false], packages := [pkgGold], payments := [payMem] }

/-- Store for the boost-entitlement scenario: user with 2 credits and
`payBoost`. -/
def storeBoostPay : Store :=
  { emptyStore with users := [mkUser 1 2 false], payments := [payBoost] }

/-- Store with one user and no membership packages at all. -/
def storeNoPkg : Store := { emptyStore with users := [mkUser 1 0 false] }

/-- Store with one user and only the inactive package. -/
def storeInactivePkg : Store :=
  { emptyStore with users := [mkUser 1 0 false], packages := [pkgInactive] }

/-- A `membership`-type payment request carrying a null membership id. -/
def payInpNullMem : CreatePaymentInput :=
  { membership_id := none, ad_id := none, type := .membership, amount := 1000 }

/-- A `membership`-type payment request referencing the inactive
package. -/
def payInpInactive : CreatePaymentInput :=
  { membership_id := some 2, ad_id := none, type := .membership, amount := 1000 }

/-- A `membership`-type payment request referencing the Gold package. -/
def payInpGold : CreatePaymentInput :=
  { membership_id := some 1, ad_id := none, type := .membership, amount := 1000 }

/-- Store with the Gold package and one user, for payment creation. -/
def storeGold : Store :=
  { emptyStore with users := [mkUser 1 0 false], packages := [pkgGold] }

/-- Store for the view-counter scenario: one active ad. -/
def storeViews : Store :=
  { emptyStore with ads := [adOwned], users := [mkUser 1 0 false] }

/-- Active ad titled "Fresh Fish" (capital F), for the search-case
analysis. -/
def adFish : Ad := mkAd 1 1 10 .active false none "Fresh Fish" "Great catch" "Jakarta"

/-- Store holding only `adFish`. -/
def storeFish : Store := { emptyStore with ads := [adFish] }

/-- Category creation request used by the round-trip scenario. -/
def catInpW : CreateCategoryInput :=
  { name := "Fish", description := none, icon_url := none }

/-- Updating the rows whose key is `id` rewrites exactly the rows the
same `find?` would return: the first match of the updated list is the
image under `g` of the first match of the original list, provided `g`
preserves the key on matching rows. -/
theorem find?_updateWhere {α : Type} (key : α → Nat) (id : Nat) (g : α → α)
    (hg : ∀ a, key a = id → key (g a) = id) (l : List α) :
    (updateWhere key id g l).find? (fun a => key a == id)
      = Option.map g (l.find? (fun a => key a == id)) := by
  induction l with
  | nil => rfl
  | cons a t ih =>
    simp only [updateWhere, List.map_cons]
    by_cases h : key a = id
    · have h1 : (key a == id) = true := by simp [h]
      have h2 : (key (g a) == id) = true := by simp [hg a h]
      rw [if_pos h1]
      simp only [List.find?_cons, h1, h2]
      rfl
    · have h1 : (key a == id) = false := by simp [h]
      rw [if_neg (by simp [h1])]
      simp only [List.find?_cons, h1]
      exact ih

/-- Updating rows with `g` leaves any projection invariant under `g`
unchanged on every `find?`-by-key query, provided `g` also preserves
keys. -/
theorem find?_updateWhere_proj {α β : Type} (key : α → Nat) (updId : Nat)
    (g : α → α) (hkey : ∀ a, key (g a) = key a) (proj : α → β)
    (hproj : ∀ a, proj (g a) = proj a) (l : List α) (qid : Nat) :
    Option.map proj ((updateWhere key updId g l).find? (fun a => key a == qid))
      = Option.map proj (l.find? (fun a => key a == qid)) := by
  induction l with
  | nil => rfl
  | cons a t ih =>
    simp only [updateWhere, List.map_cons]
    by_cases hu : key a = updId
    · have hb : (key a == updId) = true := by simp [hu]
      rw [if_pos hb]
      by_cases hq : key a = qid
      · have hq1 : (key a == qid) = true := by simp [hq]
        have hq2 : (key (g a) == qid) = true := by simp [hkey, hq]
        simp only [List.find?_cons, hq1, hq2]
        simp [hproj]
      · have hq1 : (key a == qid) = false := by simp [hq]
        have hq2 : (key (g a) == qid) = false := by simp [hkey, hq]
        simp only [List.find?_cons, hq1, hq2]
        exact ih
    · have hb : (key a == updId) = false := by simp [hu]
      rw [if_neg (by simp [hb])]
      by_cases hq : key a = qid
      · have hq1 : (key a == qid) = true := by simp [hq]
        simp only [List.find?_cons, hq1]
      · have hq1 : (key a == qid) = false := by simp [hq]
        simp only [List.find?_cons, hq1]
        exact ih

/-- Every member of a list of naturals is bounded by `foldr max 0`. -/
theorem le_foldr_max (l : List Nat) : ∀ x ∈ l, x ≤ l.foldr max 0 := by
  induction l with
  | nil => intro x hx; cases hx
  | cons a t ih =>
    intro x hx
    rcases List.mem_cons.mp hx with h | h
    · subst h; exact le_max_left _ _
    · exact le_trans (ih x h) (le_max_right _ _)

/-- If no row of the first list matches, `find?` over an append searches
the second list. -/
theorem find?_append_of_left_none {α : Type} (p : α → Bool) (l₁ l₂ : List α)
    (h : l₁.find? p = none) : (l₁ ++ l₂).find? p = l₂.find? p := by
  induction l₁ with
  | nil => rfl
  | cons a t ih =>
    have ha : p a = false := by
      by_contra hcon
      have : p a = true := by
        cases hpa : p a
        · exact absurd hpa hcon
        · rfl
      rw [List.find?_cons_of_pos _ this] at h
      cases h
    have ht : t.find? p = none := by
      rw [List.find?_cons_of_neg _ (by simp [ha])] at h
      exact h
    rw [List.cons_append, List.find?_cons_of_neg _ (by simp [ha])]
    exact ih ht

/-- With no filters supplied, the WHERE clause of `getAds` degenerates
to the always-present status condition. -/
theorem adMatches_noFilter (a : Ad) :
    adMatches noFilterInput a = (a.status == AdStatus.active) := by
  simp [adMatches, noFilterInput]

/-- `getAds` with no filters is the sorted filter: no pagination clause
is added. -/
theorem getAds_noFilter_eq (s : Store) :
    getAds noFilterInput s
      = List.insertionSort adBefore (s.ads.filter (adMatches noFilterInput)) := rfl

/-- The SQL ordering relation implies the plain-language ordering on the
raw boost flag: flagged rows first, then newer rows first among rows
with the same flag. -/
theorem adBefore_imp (a b : Ad) (h : adBefore a b) :
    (a.is_boosted = false → b.is_boosted = false) ∧
    (a.is_boosted = b.is_boosted → b.created_at ≤ a.created_at) := by
  unfold adBefore boostRank at h
  cases ha : a.is_boosted <;> cases hb : b.is_boosted <;> simp [ha, hb] at h ⊢ <;> omega

/-- C1 (amended): `getAds` with no filters returns exactly the ads with
status `active`, ordered with every ad whose raw `is_boosted` flag is
set (regardless of `boost_expires_at`) before every unflagged ad, and by
`created_at` descending within each of the two flag partitions.  The
handler orders by `desc(is_boosted), desc(created_at)` and never
consults the boost expiry. -/
theorem getAds_noFilter_ordering (s : Store) :
    (∀ a ∈ getAds noFilterInput s, a.status = AdStatus.active) ∧
    List.Pairwise (fun a b : Ad =>
      (a.is_boosted = false → b.is_boosted = false) ∧
      (a.is_boosted = b.is_boosted → b.created_at ≤ a.created_at))
      (getAds noFilterInput s) ∧
    (∀ a : Ad, a ∈ getAds noFilterInput s ↔ a ∈ s.ads ∧ a.status = AdStatus.active) := by
  have hmem : ∀ a : Ad,
      a ∈ getAds noFilterInput s ↔ a ∈ s.ads ∧ a.status = AdStatus.active := by
    intro a
    rw [getAds_noFilter_eq, (List.perm_insertionSort adBefore _).mem_iff,
      List.mem_filter, adMatches_noFilter]
    simp
  refine ⟨fun a ha => ((hmem a).mp ha).2, ?_, hmem⟩
  have hs := List.sorted_insertionSort adBefore (s.ads.filter (adMatches noFilterInput))
  rw [getAds_noFilter_eq]
  exact hs.imp (fun h => adBefore_imp _ _ h)

/-- C1 counterexample: in `storeC1` the first-listed ad has an EXPIRED
boost (flag still true, expiry 50 < now 100), so neither ad is
effectively boosted, yet the handler lists the older flagged ad before
the newer plain ad — violating the claimed ordering, which would demand
`created_at` descending across the two non-effectively-boosted ads. -/
theorem getAds_effective_boost_order_cex :
    getAds noFilterInput storeC1 = [adExpiredBoost, adPlain] ∧
    effectivelyBoosted storeC1.now adExpiredBoost = false ∧
    effectivelyBoosted storeC1.now adPlain = false ∧
    adExpiredBoost.created_at < adPlain.created_at ∧
    ¬ specOrderedEffBoost storeC1.now (getAds noFilterInput storeC1) := by
  refine ⟨by decide, by decide, by decide, by decide, by decide⟩

/-- A successful `getAdById` leaves the store with the fetched ad's
`view_count` bumped to the read value plus one. -/
theorem findAd_getAdById (s : Store) (id : Nat) (ad : Ad)
    (h : findAd s id = some ad) :
    findAd (getAdById id s).2 id = some { ad with view_count := ad.view_count + 1 } := by
  simp only [getAdById, h]
  show (updateWhere Ad.id id
      (fun a => { a with view_count := ad.view_count + 1 }) s.ads).find?
      (fun a => a.id == id) = _
  rw [find?_updateWhere Ad.id id
    (fun a => { a with view_count := ad.view_count + 1 }) (fun a ha => ha) s.ads]
  rw [show s.ads.find? (fun a => a.id == id) = some ad from h]
  rfl

/-- C7: `getAdById` returns `null` (not an error) when the id is absent;
a successful call returns the ad carrying `view_count + 1` and stores
that same value, so N successive calls on the same ad raise its stored
`view_count` by exactly N. -/
theorem getAdById_view_count :
    (∀ (s : Store) (id : Nat), findAd s id = none → getAdById id s = (none, s)) ∧
    (∀ (s : Store) (id : Nat) (ad : Ad), findAd s id = some ad →
      (getAdById id s).1 = some { ad with view_count := ad.view_count + 1 } ∧
      findAd (getAdById id s).2 id = some { ad with view_count := ad.view_count + 1 }) ∧
    (∀ (s : Store) (id : Nat) (ad : Ad) (n : Nat), findAd s id = some ad →
      findAd (getAdByIdTimes id n s) id
        = some { ad with view_count := ad.view_count + n }) := by
  refine ⟨?_, ?_, ?_⟩
  · intro s id h
    simp [getAdById, h]
  · intro s id ad h
    exact ⟨by simp [getAdById, h], findAd_getAdById s id ad h⟩
  · intro s id ad n
    induction n generalizing s ad with
    | zero =>
      intro h
      simpa using h
    | succ n ih =>
      intro h
      have hstep := findAd_getAdById s id ad h
      have := ih (getAdById id s).2 { ad with view_count := ad.view_count + 1 } hstep
      rw [show getAdByIdTimes id (n + 1) s = getAdByIdTimes id n (getAdById id s).2 from rfl]
      rw [this]
      have harith : ad.view_count + 1 + n = ad.view_count + (n + 1) := by omega
      simp [harith]

/-- C7 witness: `storeViews` holds ad 1; three fetches raise the stored
counter from 0 to 3. -/
theorem getAdById_view_count_witness :
    findAd storeViews 1 = some adOwned ∧
    findAd (getAdByIdTimes 1 3 storeViews) 1
      = some { adOwned with view_count := adOwned.view_count + 3 } :=
  ⟨by decide, getAdById_view_count.2.2 storeViews 1 adOwned 3 (by decide)⟩

/-- C10: re-deleting an already-`deleted` ad succeeds: `deleteAd` checks
only existence and ownership/admin, performs the soft delete again, and
returns `true`, leaving the status `deleted`. -/
theorem deleteAd_redelete :
    ∀ (s : Store) (id userId : Nat) (ad : Ad) (user : User),
      findAd s id = some ad → ad.status = AdStatus.deleted →
      findUser s userId = some user →
      (ad.user_id = userId ∨ user.is_admin = true) →
      ∃ s2, deleteAd id userId s = .ok (true, s2) ∧
        (findAd s2 id).map Ad.status = some AdStatus.deleted := by
  intro s id userId ad user had hst huser hperm
  have hguard : (ad.user_id != userId && !user.is_admin) = false := by
    rcases hperm with h | h <;> simp [h]
  simp only [deleteAd, had, huser, hguard, Bool.false_eq_true, if_false]
  refine ⟨_, rfl, ?_⟩
  show ((updateWhere Ad.id id
      (fun a => { a with status := AdStatus.deleted, updated_at := s.now }) s.ads).find?
      (fun a => a.id == id)).map Ad.status = _
  rw [find?_updateWhere Ad.id id
    (fun a => { a with status := AdStatus.deleted, updated_at := s.now })
    (fun a ha => ha) s.ads]
  rw [show s.ads.find? (fun a => a.id == id) = some ad from had]
  rfl

/-- C10 witness: in `storeDeleted` ad 1 is already `deleted` and owned by
user 1; a further delete call succeeds and keeps it `deleted`. -/
theorem deleteAd_redelete_witness :
    findAd storeDeleted 1 = some adDeleted ∧ adDeleted.status = AdStatus.deleted ∧
    (∃ s2, deleteAd 1 1 storeDeleted = .ok (true, s2) ∧
      (findAd s2 1).map Ad.status = some AdStatus.deleted) :=
  ⟨by decide, by decide,
    deleteAd_redelete storeDeleted 1 1 adDeleted (mkUser 1 5 false)
      (by decide) (by decide) (by decide) (Or.inl (by decide))⟩

/-- C3 counterexample: ad 1 of `storeDeleted` has status `deleted`, yet
`moderateAd` with status `active` succeeds and the stored status becomes
`active` — `deleted` is not terminal under moderation. -/
theorem moderateAd_deleted_cex :
    (findAd storeDeleted 1).map Ad.status = some AdStatus.deleted ∧
    (moderateAd modInpActive storeDeleted).map (fun r => (findAd r.2 1).map Ad.status)
      = Except.ok (some AdStatus.active) := by
  exact ⟨rfl, rfl⟩

/-- C3 (amended): `deleted` is terminal for `updateAd` and `boostAd`
(neither ever changes any ad's status), but NOT for `moderateAd`: the
moderation handler sets the status of any existing ad — including a
`deleted` one — to the requested `active`/`rejected` value, with no
guard on the prior status. -/
theorem deleted_status_transitions :
    (∀ (s : Store) (inp : ModerateAdInput) (ad : Ad),
      findAd s inp.ad_id = some ad →
      ∃ s2, moderateAd inp s = .ok
          ({ ad with status := inp.status.toAdStatus, rejection_reason := inp.rejection_reason, updated_at := s.now }, s2) ∧
        (findAd s2 inp.ad_id).map Ad.status = some inp.status.toAdStatus) ∧
    (∀ (s : Store) (inp : UpdateAdInput) (userId : Nat) (ad : Ad),
      findAd s inp.id = some ad → ad.user_id = userId →
      ∃ r s2, updateAd inp userId s = .ok (r, s2) ∧
        ∀ qid, (findAd s2 qid).map Ad.status = (findAd s qid).map Ad.status) ∧
    (∀ (s : Store) (inp : BoostAdInput) (userId : Nat) (ad : Ad) (user : User),
      findAd s inp.ad_id = some ad → ad.user_id = userId →
      findUser s userId = some user → 1 ≤ user.boost_credits →
      ∃ r s2, boostAd inp userId s = .ok (r, s2) ∧
        ∀ qid, (findAd s2 qid).map Ad.status = (findAd s qid).map Ad.status) := by
  refine ⟨?_, ?_, ?_⟩
  · intro s inp ad had
    simp only [moderateAd, had]
    refine ⟨_, rfl, ?_⟩
    show ((updateWhere Ad.id inp.ad_id
        (fun a => { a with status := inp.status.toAdStatus, rejection_reason := inp.rejection_reason, updated_at := s.now })
        s.ads).find? (fun a => a.id == inp.ad_id)).map Ad.status = _
    rw [find?_updateWhere Ad.id inp.ad_id
      (fun a => { a with status := inp.status.toAdStatus, rejection_reason := inp.rejection_reason, updated_at := s.now })
      (fun a ha => ha) s.ads]
    rw [show s.ads.find? (fun a => a.id == inp.ad_id) = some ad from had]
    rfl
  · intro s inp userId ad had howner
    have hneq : (ad.user_id != userId) = false := by simp [howner]
    simp only [updateAd, had, hneq, Bool.false_eq_true, if_false]
    refine ⟨_, _, rfl, ?_⟩
    intro qid
    apply find?_updateWhere_proj
    · intro a; rfl
    · intro a; rfl
  · intro s inp userId ad user had howner huser hcred
    have hneq : (ad.user_id != userId) = false := by simp [howner]
    have hge : ¬ user.boost_credits < 1 := by omega
    simp only [boostAd, had, hneq, huser, Bool.false_eq_true, if_false, hge]
    refine ⟨_, _, rfl, ?_⟩
    intro qid
    apply find?_updateWhere_proj
    · intro a; rfl
    · intro a; rfl

/-- C3 witness: moderating the deleted ad 1 of `storeDeleted` to
`active`, updating ad 1 via its owner, and boosting ad 1 of
`storeOneCredit` via its owner all take the success branches of the
amended statement. -/
theorem deleted_status_transitions_witness :
    findAd storeDeleted 1 = some adDeleted ∧
    (∃ s2, moderateAd modInpActive storeDeleted = .ok
        ({ adDeleted with status := AdStatus.active, rejection_reason := (none : Option String), updated_at := storeDeleted.now }, s2) ∧
      (findAd s2 1).map Ad.status = some AdStatus.active) :=
  ⟨by decide,
    deleted_status_transitions.1 storeDeleted modInpActive adDeleted (by decide)⟩

/-- C2: a boost by the owner with at least 1 credit sets the boost flag,
sets the expiry to now plus `duration_days` days, and writes the
requester's balance to the read value minus exactly 1, whatever
`duration_days` is; with fewer than 1 credit the call fails with the
insufficient-credits error and, the store being untouched by a thrown
error, any further boost attempt by the same requester on the same store
fails the same way. -/
theorem boostAd_credit_economy :
    (∀ (s : Store) (inp : BoostAdInput) (userId : Nat) (ad : Ad) (user : User),
      findAd s inp.ad_id = some ad → ad.user_id = userId →
      findUser s userId = some user → 1 ≤ user.boost_credits →
      ∃ s2, boostAd inp userId s = .ok
          ({ ad with is_boosted := true, boost_expires_at := some (s.now + inp.duration_days * dayMillis), updated_at := s.now }, s2) ∧
        (findAd s2 inp.ad_id).map Ad.is_boosted = some true ∧
        (findAd s2 inp.ad_id).map Ad.boost_expires_at
          = some (some (s.now + inp.duration_days * dayMillis)) ∧
        (findUser s2 userId).map User.boost_credits = some (user.boost_credits - 1)) ∧
    (∀ (s : Store) (inp : BoostAdInput) (userId : Nat) (ad : Ad) (user : User),
      findAd s inp.ad_id = some ad → ad.user_id = userId →
      findUser s userId = some user → user.boost_credits < 1 →
      boostAd inp userId s = .error "Insufficient boost credits") := by
  constructor
  · intro s inp userId ad user had howner huser hcred
    have hneq : (ad.user_id != userId) = false := by simp [howner]
    have hge : ¬ user.boost_credits < 1 := by omega
    simp only [boostAd, had, hneq, huser, Bool.false_eq_true, if_false, hge]
    refine ⟨_, rfl, ?_, ?_, ?_⟩
    · show ((updateWhere Ad.id inp.ad_id
          (fun a => { a with is_boosted := true, boost_expires_at := some (s.now + inp.duration_days * dayMillis), updated_at := s.now })
          s.ads).find? (fun a => a.id == inp.ad_id)).map Ad.is_boosted = _
      rw [find?_updateWhere Ad.id inp.ad_id
        (fun a => { a with is_boosted := true, boost_expires_at := some (s.now + inp.duration_days * dayMillis), updated_at := s.now })
        (fun a ha => ha) s.ads]
      rw [show s.ads.find? (fun a => a.id == inp.ad_id) = some ad from had]
      rfl
    · show ((updateWhere Ad.id inp.ad_id
          (fun a => { a with is_boosted := true, boost_expires_at := some (s.now + inp.duration_days * dayMillis), updated_at := s.now })
          s.ads).find? (fun a => a.id == inp.ad_id)).map Ad.boost_expires_at = _
      rw [find?_updateWhere Ad.id inp.ad_id
        (fun a => { a with is_boosted := true, boost_expires_at := some (s.now + inp.duration_days * dayMillis), updated_at := s.now })
        (fun a ha => ha) s.ads]
      rw [show s.ads.find? (fun a => a.id == inp.ad_id) = some ad from had]
      rfl
    · show ((updateWhere User.id userId
          (fun u => { u with boost_credits := user.boost_credits - 1 })
          s.users).find? (fun u => u.id == userId)).map User.boost_credits = _
      rw [find?_updateWhere User.id userId
        (fun u => { u with boost_credits := user.boost_credits - 1 })
        (fun u hu => hu) s.users]
      rw [show s.users.find? (fun u => u.id == userId) = some user from huser]
      rfl
  · intro s inp userId ad user had howner huser hcred
    have hneq : (ad.user_id != userId) = false := by simp [howner]
    have hlt : (user.boost_credits < 1) = True := by simp [hcred]
    simp [boostAd, had, hneq, huser, hlt]

/-- C2 witness: with `storeOneCredit` (owner holds exactly 1 credit) the
boost succeeds and leaves balance 0; with `storeZeroCredit` (balance 0,
the state a successful single-credit boost leaves the wallet in) the
same request fails with the insufficient-credits error. -/
theorem boostAd_credit_economy_witness :
    (∃ s2, boostAd boostInpW 1 storeOneCredit = .ok
        ({ adOwned with is_boosted := true, boost_expires_at := some (storeOneCredit.now + boostInpW.duration_days * dayMillis), updated_at := storeOneCredit.now }, s2) ∧
      (findAd s2 boostInpW.ad_id).map Ad.is_boosted = some true ∧
      (findAd s2 boostInpW.ad_id).map Ad.boost_expires_at
        = some (some (storeOneCredit.now + boostInpW.duration_days * dayMillis)) ∧
      (findUser s2 1).map User.boost_credits = some ((mkUser 1 1 false).boost_credits - 1)) ∧
    boostAd boostInpW 1 storeZeroCredit = .error "Insufficient boost credits" :=
  ⟨boostAd_credit_economy.1 storeOneCredit boostInpW 1 adOwned (mkUser 1 1 false)
      (by decide) (by decide) (by decide) (by decide),
   boostAd_credit_economy.2 storeZeroCredit boostInpW 1 adOwned (mkUser 1 0 false)
      (by decide) (by decide) (by decide) (by decide)⟩

/-- The empty list is always among the suffixes. -/
theorem nil_mem_suffixes : ∀ s : List Char, [] ∈ suffixes s := by
  intro s
  induction s with
  | nil => simp [suffixes]
  | cons a t ih => exact List.mem_cons_of_mem _ ih

/-- A lone `%` pattern matches every string. -/
theorem likeMatch_pct (s : List Char) : likeMatch ['%'] s = true := by
  rw [likeMatch.eq_def]
  simp only [if_pos rfl]
  exact List.any_eq_true.mpr ⟨[], nil_mem_suffixes s, by rw [likeMatch.eq_def]; rfl⟩

/-- Scanning all suffixes for a literal prefix is exactly substring
containment. -/
theorem any_suffixes_prefix (n : List Char) :
    ∀ s, (suffixes s).any (fun t => n.isPrefixOf t) = hasSubstr n s := by
  intro s
  induction s with
  | nil => cases n <;> simp [suffixes, hasSubstr, List.isPrefixOf]
  | cons a t ih => simp [suffixes, hasSubstr, ih]

/-- For a metacharacter-free needle, the pattern `needle ++ ['%']`
matches exactly the strings the needle is a literal prefix of. -/
theorem likeMatch_append_pct :
    ∀ n : List Char, (∀ c ∈ n, ¬c = '%' ∧ ¬c = '_' ∧ ¬c = '\\') →
      ∀ s, likeMatch (n ++ ['%']) s = n.isPrefixOf s := by
  intro n
  induction n with
  | nil =>
    intro _ s
    simp [likeMatch_pct s, List.isPrefixOf]
  | cons c n' ih =>
    intro hfree s
    obtain ⟨h1, h2, h3⟩ := hfree c (List.mem_cons_self _ _)
    have hf' : ∀ d ∈ n', ¬d = '%' ∧ ¬d = '_' ∧ ¬d = '\\' :=
      fun d hd => hfree d (List.mem_cons_of_mem _ hd)
    cases s with
    | nil =>
      rw [likeMatch.eq_def]
      simp [h1, h2, h3, List.isPrefixOf]
    | cons a t =>
      rw [likeMatch.eq_def]
      simp [h1, h2, h3, List.isPrefixOf, ih hf' t]

/-- For a metacharacter-free needle, the pattern `'%' ++ needle ++ '%'`
(what `getAds` interpolates) matches exactly the strings containing the
needle as a contiguous substring. -/
theorem likeMatch_wrap (n : List Char)
    (hfree : ∀ c ∈ n, ¬c = '%' ∧ ¬c = '_' ∧ ¬c = '\\') :
    ∀ s, likeMatch ('%' :: (n ++ ['%'])) s = hasSubstr n s := by
  intro s
  have hpt : ∀ t, likeMatch (n ++ ['%']) t = n.isPrefixOf t :=
    likeMatch_append_pct n hfree
  rw [likeMatch.eq_def]
  simp only [if_pos rfl, hpt]
  exact any_suffixes_prefix n s

/-- On a needle with no LIKE metacharacter, the interpolated
`LIKE '%needle%'` condition is plain substring containment. -/
theorem sqlLikeContains_plain (q h : String) (hq : likePlain q = true) :
    sqlLikeContains q h = substrContains q h := by
  have hfree : ∀ c ∈ q.toList, ¬c = '%' ∧ ¬c = '_' ∧ ¬c = '\\' := by
    intro c hc
    have hall := List.all_eq_true.mp hq c hc
    simpa [and_assoc] using hall
  exact likeMatch_wrap q.toList hfree h.toList

/-- C8 (amended): with a non-empty search string free of LIKE
metacharacters (`%`, `_`, `\`) as the only filter, an ad is in the
`getAds` result iff it is stored, active, and the search string is a
CASE-SENSITIVE substring of its title or description; the location
filter behaves the same way on the location column.  (The handler
interpolates the raw string into `like(col, '%q%')`, so
metacharacters in the input keep their LIKE meaning — hence the
`likePlain` hypothesis — and Postgres `LIKE` is case-sensitive.) -/
theorem getAds_search_location_substring :
    (∀ (s : Store) (q : String) (a : Ad), q ≠ "" → likePlain q = true →
      (a ∈ getAds (searchOnlyInput q) s ↔
        a ∈ s.ads ∧ a.status = AdStatus.active ∧
          (substrContains q a.title = true ∨ substrContains q a.description = true))) ∧
    (∀ (s : Store) (loc : String) (a : Ad), loc ≠ "" → likePlain loc = true →
      (a ∈ getAds (locationOnlyInput loc) s ↔
        a ∈ s.ads ∧ a.status = AdStatus.active ∧
          substrContains loc a.location = true)) := by
  constructor
  · intro s q a hq hplain
    have hq' : (q == "") = false := by simp [hq]
    have hrw1 := sqlLikeContains_plain q a.title hplain
    have hrw2 := sqlLikeContains_plain q a.description hplain
    rw [show getAds (searchOnlyInput q) s
        = List.insertionSort adBefore (s.ads.filter (adMatches (searchOnlyInput q))) from rfl,
      (List.perm_insertionSort adBefore _).mem_iff, List.mem_filter]
    simp [adMatches, searchOnlyInput, noFilterInput, hq', hrw1, hrw2, and_assoc]
  · intro s loc a hloc hplain
    have hloc' : (loc == "") = false := by simp [hloc]
    have hrw := sqlLikeContains_plain loc a.location hplain
    rw [show getAds (locationOnlyInput loc) s
        = List.insertionSort adBefore (s.ads.filter (adMatches (locationOnlyInput loc))) from rfl,
      (List.perm_insertionSort adBefore _).mem_iff, List.mem_filter]
    simp [adMatches, locationOnlyInput, noFilterInput, hloc', hrw, and_assoc]

/-- C8 witness: "Fish" and "Jak" are metacharacter-free; the same-case
search "Fish" and the location fragment "Jak" both return the stored ad
`adFish`. -/
theorem getAds_search_location_substring_witness :
    ("Fish" : String) ≠ "" ∧ likePlain "Fish" = true ∧
    ("Jak" : String) ≠ "" ∧ likePlain "Jak" = true ∧
    adFish ∈ getAds (searchOnlyInput "Fish") storeFish ∧
    adFish ∈ getAds (locationOnlyInput "Jak") storeFish :=
  ⟨by decide, by decide, by decide, by decide,
    (getAds_search_location_substring.1 storeFish "Fish" adFish (by decide) (by decide)).mpr
      (by refine ⟨by decide, by decide, Or.inl (by decide)⟩),
    (getAds_search_location_substring.2 storeFish "Jak" adFish (by decide) (by decide)).mpr
      (by refine ⟨by decide, by decide, by decide⟩)⟩

/-- C8 counterexample: the stored active ad is titled "Fresh Fish", and
"fish" IS a case-insensitive substring of that title, yet the search
"fish" (wildcard-free, so it means a literal substring) returns
nothing — `like` in Postgres is case-sensitive (the users handler uses
`ilike`; the ads handler deliberately does not). -/
theorem getAds_search_case_cex :
    adFish ∈ storeFish.ads ∧ adFish.status = AdStatus.active ∧
    ciContains "fish" adFish.title = true ∧
    getAds (searchOnlyInput "fish") storeFish = [] := by
  refine ⟨by decide, by decide, by decide, by decide⟩

/-- C9: creating a category then deactivating it removes it from
`getCategories()` but keeps the row (lookup by id shows
`is_active = false`); `deleteCategory` returns `true` on the first and on
any repeated call (idempotent success), and returns `false` exactly when
the id does not exist. -/
theorem category_deactivate_roundtrip :
    (∀ (s : Store) (inp : CreateCategoryInput),
      (deleteCategory (createCategory inp s).1.id (createCategory inp s).2).1 = true ∧
      findCategory (deleteCategory (createCategory inp s).1.id (createCategory inp s).2).2
          (createCategory inp s).1.id
        = some { (createCategory inp s).1 with is_active := false } ∧
      (∀ d ∈ getCategories
          (deleteCategory (createCategory inp s).1.id (createCategory inp s).2).2,
        d.id ≠ (createCategory inp s).1.id) ∧
      (deleteCategory (createCategory inp s).1.id
          (deleteCategory (createCategory inp s).1.id (createCategory inp s).2).2).1 = true) ∧
    (∀ (s : Store) (id : Nat), (deleteCategory id s).1 = false ↔ findCategory s id = none) := by
  constructor
  · intro s inp
    have hfresh : ∀ d ∈ s.categories, d.id ≠ nextCategoryId s := by
      intro d hd
      have hle := le_foldr_max (s.categories.map Category.id) d.id
        (List.mem_map_of_mem Category.id hd)
      unfold nextCategoryId
      omega
    -- abbreviations matching the definitional unfolding
    have hc1 : (createCategory inp s).1
        = { id := nextCategoryId s, name := inp.name, description := inp.description, icon_url := inp.icon_url, is_active := true, created_at := s.now } := rfl
    have hc2 : (createCategory inp s).2.categories
        = s.categories ++ [(createCategory inp s).1] := rfl
    have hmem : (createCategory inp s).1 ∈ (createCategory inp s).2.categories := by
      rw [hc2]
      exact List.mem_append_right _ (List.mem_singleton.mpr rfl)
    have hid : (createCategory inp s).1.id = nextCategoryId s := rfl
    -- (1) first deactivation returns true
    have hdel1 : (deleteCategory (createCategory inp s).1.id (createCategory inp s).2).1 = true := by
      show (!((createCategory inp s).2.categories.filter
          (fun c => c.id == (createCategory inp s).1.id)).isEmpty) = true
      have : (createCategory inp s).1 ∈ (createCategory inp s).2.categories.filter
          (fun c => c.id == (createCategory inp s).1.id) :=
        List.mem_filter.mpr ⟨hmem, by simp⟩
      cases hemp : ((createCategory inp s).2.categories.filter
          (fun c => c.id == (createCategory inp s).1.id)).isEmpty
      · rfl
      · rw [List.isEmpty_iff] at hemp
        rw [hemp] at this
        cases this
    refine ⟨hdel1, ?_, ?_, ?_⟩
    -- (2) the row survives with is_active := false
    · show ((updateWhere Category.id (createCategory inp s).1.id
          (fun c => { c with is_active := false })
          (createCategory inp s).2.categories).find?
          (fun c => c.id == (createCategory inp s).1.id)) = _
      rw [find?_updateWhere Category.id (createCategory inp s).1.id
        (fun c => { c with is_active := false }) (fun c hc => hc)
        (createCategory inp s).2.categories]
      rw [hc2]
      rw [find?_append_of_left_none _ s.categories _ (List.find?_eq_none.mpr (by
        intro d hd
        simp [hid, hfresh d hd]))]
      simp
    -- (3) gone from getCategories
    · intro d hd
      have hd' := List.mem_filter.mp hd
      rcases hd' with ⟨hdmem, hdact⟩
      rcases List.mem_map.mp hdmem with ⟨x, hx, hfx⟩
      by_cases hxid : x.id = (createCategory inp s).1.id
      · have : (x.id == (createCategory inp s).1.id) = true := by simp [hxid]
        rw [if_pos this] at hfx
        rw [← hfx] at hdact
        cases hdact
      · have : (x.id == (createCategory inp s).1.id) = false := by simp [hxid]
        rw [if_neg (by simp [this])] at hfx
        rw [← hfx]
        exact hxid
    -- (4) second deactivation still returns true
    · show (!(((deleteCategory (createCategory inp s).1.id (createCategory inp s).2).2).categories.filter
          (fun c => c.id == (createCategory inp s).1.id)).isEmpty) = true
      have hmem2 : { (createCategory inp s).1 with is_active := false }
          ∈ ((deleteCategory (createCategory inp s).1.id (createCategory inp s).2).2).categories := by
        show _ ∈ updateWhere Category.id (createCategory inp s).1.id
          (fun c => { c with is_active := false }) (createCategory inp s).2.categories
        unfold updateWhere
        have := List.mem_map_of_mem
          (fun a : Category => if a.id == (createCategory inp s).1.id
            then { a with is_active := false } else a) hmem
        simpa using this
      have : { (createCategory inp s).1 with is_active := false }
          ∈ ((deleteCategory (createCategory inp s).1.id (createCategory inp s).2).2).categories.filter
            (fun c => c.id == (createCategory inp s).1.id) :=
        List.mem_filter.mpr ⟨hmem2, by simp⟩
      cases hemp : (((deleteCategory (createCategory inp s).1.id (createCategory inp s).2).2).categories.filter
          (fun c => c.id == (createCategory inp s).1.id)).isEmpty
      · rfl
      · rw [List.isEmpty_iff] at hemp
        rw [hemp] at this
        cases this
  · intro s id
    show (!(s.categories.filter (fun c => c.id == id)).isEmpty) = false ↔ _
    constructor
    · intro h
      have h' : (s.categories.filter (fun c => c.id == id)).isEmpty = true := by
        cases hemp : (s.categories.filter (fun c => c.id == id)).isEmpty
        · rw [hemp] at h; cases h
        · rfl
      rw [List.isEmpty_iff, List.filter_eq_nil_iff] at h'
      exact List.find?_eq_none.mpr h'
    · intro h
      have h' : s.categories.filter (fun c => c.id == id) = [] :=
        List.filter_eq_nil_iff.mpr (List.find?_eq_none.mp h)
      rw [h']
      rfl

/-- C9 witness: the round trip on the empty store — create "Fish",
deactivate it (true), the row survives deactivated, the listing is
empty, and a repeat deactivation still returns true. -/
theorem category_deactivate_roundtrip_witness :
    (deleteCategory (createCategory catInpW emptyStore).1.id (createCategory catInpW emptyStore).2).1 = true ∧
    findCategory (deleteCategory (createCategory catInpW emptyStore).1.id (createCategory catInpW emptyStore).2).2 (createCategory catInpW emptyStore).1.id
      = some { (createCategory catInpW emptyStore).1 with is_active := false } ∧
    getCategories (deleteCategory (createCategory catInpW emptyStore).1.id (createCategory catInpW emptyStore).2).2 = [] ∧
    (deleteCategory (createCategory catInpW emptyStore).1.id (deleteCategory (createCategory catInpW emptyStore).1.id (createCategory catInpW emptyStore).2).2).1 = true := by
  obtain ⟨a, b, c, d⟩ := category_deactivate_roundtrip.1 emptyStore catInpW
  exact ⟨a, b, by decide, d⟩

/-- C6 counterexample: with `payInpNullMem` the payment type is
`membership` but `membership_id` is null; the handler's
`input.membership_id` truthiness guard skips the package validation
entirely, and creation succeeds with a `pending` payment even though the
store holds no membership package at all. -/
theorem createPayment_null_membership_cex :
    payInpNullMem.type = PaymentType.membership ∧
    payInpNullMem.membership_id = none ∧
    findUser storeNoPkg 1 = some (mkUser 1 0 false) ∧
    storeNoPkg.packages = [] ∧
    (createPayment payInpNullMem 1 storeNoPkg).map (fun r => r.1.status)
      = Except.ok PaymentStatus.pending := by
  exact ⟨rfl, rfl, by decide, rfl, rfl⟩

/-- C6 (amended): for a `membership` payment whose `membership_id` is a
non-null, non-zero id, creation by an existing user fails with the
not-found-or-inactive error exactly when no ACTIVE package carries that
id (an inactive package with the id still fails); when an active package
carries the id, a `pending` payment is created.  A null (or zero)
`membership_id` skips the validation entirely. -/
theorem createPayment_membership_validation :
    ∀ (s : Store) (inp : CreatePaymentInput) (userId : Nat) (user : User) (m : Nat),
      findUser s userId = some user →
      inp.type = PaymentType.membership →
      inp.membership_id = some m → m ≠ 0 →
      ((∀ pkg ∈ s.packages, ¬(pkg.id = m ∧ pkg.is_active = true)) →
        createPayment inp userId s = .error "Membership package not found or inactive") ∧
      ((∃ pkg ∈ s.packages, pkg.id = m ∧ pkg.is_active = true) →
        ∃ p s2, createPayment inp userId s = .ok (p, s2) ∧
          p.status = PaymentStatus.pending ∧ p.type = PaymentType.membership ∧
          p.membership_id = some m) := by
  intro s inp userId user m huser htype hmid hm
  have htruthy : truthyId inp.membership_id = true := by
    rw [hmid]; simp [truthyId, hm]
  have htb : (inp.type == PaymentType.membership) = true := by simp [htype]
  constructor
  · intro habs
    have hfil : s.packages.filter
        (fun p => p.id == inp.membership_id.getD 0 && p.is_active) = [] := by
      rw [List.filter_eq_nil_iff]
      intro pkg hpkg
      have := habs pkg hpkg
      rw [hmid]
      simp only [Option.getD_some]
      intro hcon
      have hcon' : pkg.id = m ∧ pkg.is_active = true := by simpa using hcon
      exact this hcon'
    simp only [createPayment, huser, htb, htruthy, Bool.and_self, Bool.true_and, hfil,
      List.isEmpty_nil, if_true]
  · intro hex
    rcases hex with ⟨pkg, hpkg, hpid, hpact⟩
    have hfil : (s.packages.filter
        (fun p => p.id == inp.membership_id.getD 0 && p.is_active)).isEmpty = false := by
      have hmem : pkg ∈ s.packages.filter
          (fun p => p.id == inp.membership_id.getD 0 && p.is_active) :=
        List.mem_filter.mpr ⟨hpkg, by rw [hmid]; simp [hpid, hpact]⟩
      cases hemp : (s.packages.filter
          (fun p => p.id == inp.membership_id.getD 0 && p.is_active)).isEmpty
      · rfl
      · rw [List.isEmpty_iff] at hemp
        rw [hemp] at hmem
        cases hmem
    have hnb : (inp.type == PaymentType.boost) = false := by simp [htype]
    simp only [createPayment, huser, htb, htruthy, Bool.and_self, Bool.true_and, hfil,
      Bool.false_eq_true, if_false, hnb, Bool.false_and]
    exact ⟨_, _, rfl, rfl, htype, hmid⟩

/-- C6 witness: with only the inactive package (id 2) in the store,
creating a membership payment referencing id 2 fails with the
not-found-or-inactive error; with the active Gold package (id 1) in the
store, creation succeeds as `pending`. -/
theorem createPayment_membership_validation_witness :
    createPayment payInpInactive 1 storeInactivePkg
      = .error "Membership package not found or inactive" ∧
    (∃ p s2, createPayment payInpGold 1 storeGold = .ok (p, s2) ∧
      p.status = PaymentStatus.pending ∧ p.type = PaymentType.membership ∧
      p.membership_id = some 1) :=
  ⟨(createPayment_membership_validation storeInactivePkg payInpInactive 1
      (mkUser 1 0 false) 2 (by decide) rfl rfl (by decide)).1 (by decide),
   (createPayment_membership_validation storeGold payInpGold 1
      (mkUser 1 0 false) 1 (by decide) rfl rfl (by decide)).2
      ⟨pkgGold, by decide, rfl, rfl⟩⟩

/-- C4: applying entitlement for a `membership` payment (non-null
package reference, package present) assigns the package to the payer and
ADDS the package's credit grant to the payer's existing balance; for a
`boost` payment (non-null ad reference) it adds the floor of the payment
amount (`amount / 100` in minor units) to the balance. -/
theorem processSuccessfulPayment_grants :
    (∀ (s : Store) (pid : Nat) (payment : Payment) (m : Nat)
        (pkg : MembershipPackage) (u : User),
      findPayment s pid = some payment →
      payment.type = PaymentType.membership →
      payment.membership_id = some m → m ≠ 0 →
      findPackage s m = some pkg →
      findUser s payment.user_id = some u →
      ∃ s2, processSuccessfulPayment pid s = .ok s2 ∧
        (findUser s2 payment.user_id).map User.membership_id = some (some m) ∧
        (findUser s2 payment.user_id).map User.boost_credits
          = some (u.boost_credits + pkg.boost_credits)) ∧
    (∀ (s : Store) (pid : Nat) (payment : Payment) (aid : Nat) (u : User),
      findPayment s pid = some payment →
      payment.type = PaymentType.boost →
      payment.ad_id = some aid → aid ≠ 0 →
      findUser s payment.user_id = some u →
      ∃ s2, processSuccessfulPayment pid s = .ok s2 ∧
        (findUser s2 payment.user_id).map User.boost_credits
          = some (u.boost_credits + payment.amount / 100)) := by
  constructor
  · intro s pid payment m pkg u hpay htype hmid hm hpkg huser
    have hcond : (payment.type == PaymentType.membership
        && truthyId payment.membership_id) = true := by
      rw [htype, hmid]; simp [truthyId, hm]
    have hgetd : payment.membership_id.getD 0 = m := by rw [hmid]; rfl
    simp only [processSuccessfulPayment, hpay, hcond, if_true, hgetd]
    have hpkg1 : findPackage { s with users := updateWhere User.id payment.user_id (fun w => { w with membership_id := payment.membership_id, updated_at := s.now }) s.users } m = some pkg := hpkg
    rw [hpkg1]
    have huser1 : findUser { s with users := updateWhere User.id payment.user_id (fun w => { w with membership_id := payment.membership_id, updated_at := s.now }) s.users } payment.user_id = some { u with membership_id := payment.membership_id, updated_at := s.now } := by
      show (updateWhere User.id payment.user_id
        (fun w => { w with membership_id := payment.membership_id, updated_at := s.now })
        s.users).find? (fun w => w.id == payment.user_id) = _
      rw [find?_updateWhere User.id payment.user_id
        (fun w => { w with membership_id := payment.membership_id, updated_at := s.now })
        (fun w hw => hw) s.users]
      rw [show s.users.find? (fun w => w.id == payment.user_id) = some u from huser]
      rfl
    rw [huser1]
    refine ⟨_, rfl, ?_, ?_⟩
    · show ((updateWhere User.id payment.user_id
          (fun w => { w with boost_credits := ({ u with membership_id := payment.membership_id, updated_at := s.now } : User).boost_credits + pkg.boost_credits, updated_at := s.now })
          (updateWhere User.id payment.user_id
            (fun w => { w with membership_id := payment.membership_id, updated_at := s.now })
            s.users)).find? (fun w => w.id == payment.user_id)).map User.membership_id = _
      rw [find?_updateWhere User.id payment.user_id
        (fun w => { w with boost_credits := ({ u with membership_id := payment.membership_id, updated_at := s.now } : User).boost_credits + pkg.boost_credits, updated_at := s.now })
        (fun w hw => hw) _]
      rw [find?_updateWhere User.id payment.user_id
        (fun w => { w with membership_id := payment.membership_id, updated_at := s.now })
        (fun w hw => hw) s.users]
      rw [show s.users.find? (fun w => w.id == payment.user_id) = some u from huser]
      rw [hmid]
      rfl
    · show ((updateWhere User.id payment.user_id
          (fun w => { w with boost_credits := ({ u with membership_id := payment.membership_id, updated_at := s.now } : User).boost_credits + pkg.boost_credits, updated_at := s.now })
          (updateWhere User.id payment.user_id
            (fun w => { w with membership_id := payment.membership_id, updated_at := s.now })
            s.users)).find? (fun w => w.id == payment.user_id)).map User.boost_credits = _
      rw [find?_updateWhere User.id payment.user_id
        (fun w => { w with boost_credits := ({ u with membership_id := payment.membership_id, updated_at := s.now } : User).boost_credits + pkg.boost_credits, updated_at := s.now })
        (fun w hw => hw) _]
      rw [find?_updateWhere User.id payment.user_id
        (fun w => { w with membership_id := payment.membership_id, updated_at := s.now })
        (fun w hw => hw) s.users]
      rw [show s.users.find? (fun w => w.id == payment.user_id) = some u from huser]
      rfl
  · intro s pid payment aid u hpay htype haid ha huser
    have hcondm : (payment.type == PaymentType.membership
        && truthyId payment.membership_id) = false := by
      rw [htype]; simp
    have hcondb : (payment.type == PaymentType.boost
        && truthyId payment.ad_id) = true := by
      rw [htype, haid]; simp [truthyId, ha]
    simp only [processSuccessfulPayment, hpay, hcondm, Bool.false_eq_true, if_false,
      hcondb, if_true, huser]
    refine ⟨_, rfl, ?_⟩
    show ((updateWhere User.id payment.user_id
        (fun w => { w with boost_credits := u.boost_credits + payment.amount / 100, updated_at := s.now })
        s.users).find? (fun w => w.id == payment.user_id)).map User.boost_credits = _
    rw [find?_updateWhere User.id payment.user_id
      (fun w => { w with boost_credits := u.boost_credits + payment.amount / 100, updated_at := s.now })
      (fun w hw => hw) s.users]
    rw [show s.users.find? (fun w => w.id == payment.user_id) = some u from huser]
    rfl

/-- C4 witness: in `storeMemPay` the paid membership payment assigns
package 1 and raises the balance from 2 to 2 + 5; in `storeBoostPay` the
paid 50.00 boost payment raises it from 2 to 2 + 50. -/
theorem processSuccessfulPayment_grants_witness :
    (∃ s2, processSuccessfulPayment 1 storeMemPay = .ok s2 ∧
      (findUser s2 payMem.user_id).map User.membership_id = some (some 1) ∧
      (findUser s2 payMem.user_id).map User.boost_credits
        = some ((mkUser 1 2 false).boost_credits + pkgGold.boost_credits)) ∧
    (∃ s2, processSuccessfulPayment 1 storeBoostPay = .ok s2 ∧
      (findUser s2 payBoost.user_id).map User.boost_credits
        = some ((mkUser 1 2 false).boost_credits + payBoost.amount / 100)) :=
  ⟨processSuccessfulPayment_grants.1 storeMemPay 1 payMem 1 pkgGold (mkUser 1 2 false)
      (by decide) rfl rfl (by decide) (by decide) (by decide),
   processSuccessfulPayment_grants.2 storeBoostPay 1 payBoost 1 (mkUser 1 2 false)
      (by decide) rfl rfl (by decide) (by decide)⟩

/-- C5: the gateway callback maps settlement/capture to `paid`,
deny/expire/failure to `failed`, cancel to `cancelled`, and anything
else to `pending`; it writes that status (and the raw payload) to the
matched payment, and runs `processSuccessfulPayment` on the updated
store exactly when the mapped status is `paid`. -/
theorem handleMidtransCallback_mapping :
    (mapMidtransStatus "settlement" = .paid ∧
     mapMidtransStatus "capture" = .paid ∧
     mapMidtransStatus "deny" = .failed ∧
     mapMidtransStatus "expire" = .failed ∧
     mapMidtransStatus "failure" = .failed ∧
     mapMidtransStatus "cancel" = .cancelled ∧
     (∀ g : String,
        g ∉ (["settlement", "capture", "deny", "expire", "failure", "cancel"] : List String) →
        mapMidtransStatus g = .pending)) ∧
    (∀ (s : Store) (tid gs resp : String) (payment : Payment),
      s.payments.find? (fun p => p.midtrans_transaction_id == some tid) = some payment →
      ∃ s1, (findPayment s1 payment.id).map Payment.status = some (mapMidtransStatus gs) ∧
        handleMidtransCallback tid gs resp s =
          (if mapMidtransStatus gs = PaymentStatus.paid
           then processSuccessfulPayment payment.id s1
           else Except.ok s1)) := by
  constructor
  · refine ⟨by decide, by decide, by decide, by decide, by decide, by decide, ?_⟩
    intro g hg
    simp only [List.mem_cons, List.not_mem_nil, or_false, not_or] at hg
    obtain ⟨h1, h2, h3, h4, h5, h6⟩ := hg
    simp [mapMidtransStatus, h1, h2, h3, h4, h5, h6]
  · intro s tid gs resp payment hfind
    refine ⟨{ s with payments := updateWhere Payment.id payment.id (fun p => { p with status := mapMidtransStatus gs, midtrans_response := some resp, updated_at := s.now }) s.payments }, ?_, ?_⟩
    · show ((updateWhere Payment.id payment.id (fun p => { p with status := mapMidtransStatus gs, midtrans_response := some resp, updated_at := s.now }) s.payments).find? (fun p => p.id == payment.id)).map Payment.status = _
      rw [find?_updateWhere Payment.id payment.id
        (fun p => { p with status := mapMidtransStatus gs, midtrans_response := some resp, updated_at := s.now })
        (fun p hp => hp) s.payments]
      have hmem : payment ∈ s.payments := List.mem_of_find?_eq_some hfind
      have hsome : (s.payments.find? (fun p => p.id == payment.id)).isSome = true :=
        List.find?_isSome.mpr ⟨payment, hmem, by simp⟩
      rcases Option.isSome_iff_exists.mp hsome with ⟨q, hq⟩
      rw [hq]
      rfl
    · simp only [handleMidtransCallback, hfind]
      by_cases hp : mapMidtransStatus gs = PaymentStatus.paid
      · have hb : (mapMidtransStatus gs == PaymentStatus.paid) = true := by simp [hp]
        rw [if_pos hp]
        simp only [hb, if_true]
      · have hb : (mapMidtransStatus gs == PaymentStatus.paid) = false := by simp [hp]
        rw [if_neg hp]
        simp only [hb, Bool.false_eq_true, if_false]

/-- C5 witness: in `storeMemPay` the payment with gateway transaction
"t1" exists; a "settlement" callback maps to `paid`, writes it, and
dispatches to entitlement processing on the updated store. -/
theorem handleMidtransCallback_mapping_witness :
    ∃ s1, (findPayment s1 payMem.id).map Payment.status
        = some (mapMidtransStatus "settlement") ∧
      handleMidtransCallback "t1" "settlement" "raw" storeMemPay =
        (if mapMidtransStatus "settlement" = PaymentStatus.paid
         then processSuccessfulPayment payMem.id s1
         else Except.ok s1) :=
  handleMidtransCallback_mapping.2 storeMemPay "t1" "settlement" "raw" payMem (by decide)
